import Mathlib

/-! Vector constructors for the SUNDIALS Matlab interface (`nvm_serial.c`).

The file has two functions.  `InitVectors` has an empty body and
`NewVector` forwards its `long int` argument to the library constructor
`N_VNew_Serial` and returns the handle it gets back.

C functions are embedded as programs over the calls they can make into the
vector library.  A program is run against a `Library`, which gives the
behaviour of the library on an explicit state, and running it yields the
returned value, the final state and the list of library events in order.

`long int` is embedded as `Int`: the value is only passed along, no
arithmetic is done on it, so nothing depends on the width.
-/

namespace NvmSerial

/-- The C type `N_Vector`: a pointer to a library-owned vector object, or `NULL`. -/
inductive N_Vector where
  | NULL : N_Vector
  | ptr (addr : Nat) : N_Vector
deriving DecidableEq, Repr

/-- What the vector library can observe of a running function: a call of the
serial constructor with its argument, or any operation made through a handle
(reading or writing the object it points to, or destroying it). -/
inductive Event where
  | N_VNew_Serial (n : Int) : Event
  | access (v : N_Vector) : Event
deriving DecidableEq, Repr

/-- Behaviour of the external vector library on a state of type `σ`. -/
structure Library (σ : Type) where
  /-- The serial-vector constructor: from a length and a state, a handle and a state. -/
  N_VNew_Serial : Int → σ → N_Vector × σ
  /-- Effect on the state of an operation made through a handle. -/
  access : N_Vector → σ → σ

/-- Programs over the library: return a value, call the constructor and go on
with the handle, or operate through a handle and go on. -/
inductive Prog (α : Type) where
  | ret (a : α) : Prog α
  | extNew (n : Int) (k : N_Vector → Prog α) : Prog α
  | extAccess (v : N_Vector) (k : Prog α) : Prog α

/-- Sequencing of programs. -/
def Prog.bind {α β : Type} : Prog α → (α → Prog β) → Prog β
  | Prog.ret a, f => f a
  | Prog.extNew n k, f => Prog.extNew n (fun v => (k v).bind f)
  | Prog.extAccess v k, f => Prog.extAccess v (k.bind f)

instance : Monad Prog where
  pure := Prog.ret
  bind := Prog.bind

/-- Result of running a program: the value returned, the state reached and the
library events that happened, oldest first. -/
structure Outcome (σ α : Type) where
  value : α
  state : σ
  trace : List Event

/-- Run a program against a library from a state. -/
def Prog.run {σ α : Type} (L : Library σ) : Prog α → σ → Outcome σ α
  | Prog.ret a, s => ⟨a, s, []⟩
  | Prog.extNew n k, s =>
      let r := L.N_VNew_Serial n s
      let o := (k r.1).run L r.2
      ⟨o.value, o.state, Event.N_VNew_Serial n :: o.trace⟩
  | Prog.extAccess v k, s =>
      let o := k.run L (L.access v s)
      ⟨o.value, o.state, Event.access v :: o.trace⟩

/-- The call expression `N_VNew_Serial(n)`. -/
def N_VNew_Serial (n : Int) : Prog N_Vector :=
  Prog.extNew n Prog.ret

/-- `void InitVectors() {}`. -/
def InitVectors : Prog Unit :=
  pure ()

/-- `N_Vector NewVector(long int n) { N_Vector v; v = N_VNew_Serial(n); return(v); }`. -/
def NewVector (n : Int) : Prog N_Vector := do
  let v ← N_VNew_Serial n
  return v

/-- A program called `k` times in a row. -/
def Prog.times (p : Prog Unit) : Nat → Prog Unit
  | 0 => pure ()
  | k + 1 => do
      p
      Prog.times p k

/-! ## The library as the specification describes it -/

/-- A serial vector object: its contiguous buffer.  An element is `none` while
its content is indeterminate (allocated and never written). -/
structure SerialVector where
  data : List (Option Nat)
deriving DecidableEq, Repr

/-- State of the vector library: the memory it may hand out, counted in buffer
elements, and the live vectors with their addresses, oldest first. -/
structure Heap where
  capacity : Nat
  live : List (Nat × SerialVector)
deriving DecidableEq, Repr

/-- Buffer elements held by the live vectors. -/
def Heap.used (h : Heap) : Nat :=
  (h.live.map (fun p => p.2.data.length)).sum

/-- Buffer elements still free. -/
def Heap.available (h : Heap) : Nat :=
  h.capacity - h.used

/-- An address above every live address. -/
def Heap.fresh (h : Heap) : Nat :=
  (h.live.map (fun p => p.1)).foldr max 0 + 1

/-- The live vector at an address, when there is one. -/
def Heap.lookup (h : Heap) (a : Nat) : Option SerialVector :=
  (h.live.find? (fun p => p.1 == a)).map (fun p => p.2)

/-- The vector a handle points to: nothing for `NULL` or a dead address. -/
def Heap.deref (h : Heap) : N_Vector → Option SerialVector
  | N_Vector.NULL => none
  | N_Vector.ptr a => h.lookup a

/-- Length of the buffer behind a handle. -/
def Heap.bufferLength (h : Heap) (v : N_Vector) : Option Nat :=
  (h.deref v).map (fun x => x.data.length)

/-- Modelled from the spec: the library's serial-vector constructor, whose
source is not part of the file under study.  The specification says that it is
called with the single length argument, that the result is a newly allocated
vector handle of length `n` with unspecified (not zero-initialized) contents,
and that it fails with a null handle when the allocation cannot be satisfied:
a negative length, or a length exceeding available memory. -/
def Heap.N_VNew_Serial (n : Int) (h : Heap) : N_Vector × Heap :=
  if n < 0 then (N_Vector.NULL, h)
  else if h.available < n.toNat then (N_Vector.NULL, h)
  else
    (N_Vector.ptr h.fresh,
      { h with live := h.live ++ [(h.fresh, ⟨List.replicate n.toNat none⟩)] })

/-- The library of the specification.  What the other operations on handles do
is left as a parameter. -/
def serialLibrary (acc : N_Vector → Heap → Heap) : Library Heap :=
  ⟨Heap.N_VNew_Serial, acc⟩

/-- An operation through a handle that changes nothing, used to build closed examples. -/
def Heap.idle : N_Vector → Heap → Heap :=
  fun _ h => h

/-! ## Running the two functions -/

theorem run_NewVector {σ : Type} (L : Library σ) (n : Int) (s : σ) :
    (NewVector n).run L s =
      ⟨(L.N_VNew_Serial n s).1, (L.N_VNew_Serial n s).2, [Event.N_VNew_Serial n]⟩ :=
  rfl

theorem run_InitVectors {σ : Type} (L : Library σ) (s : σ) :
    InitVectors.run L s = ⟨(), s, []⟩ :=
  rfl

theorem run_times_InitVectors {σ : Type} (L : Library σ) (s : σ) (k : Nat) :
    (Prog.times InitVectors k).run L s = ⟨(), s, []⟩ := by
  induction k with
  | zero => rfl
  | succ k ih =>
    show (Prog.times InitVectors k).run L s = ⟨(), s, []⟩
    exact ih

/-! ## The constructor of the specification -/

theorem Heap.lt_fresh (h : Heap) (p : Nat × SerialVector) (hp : p ∈ h.live) :
    p.1 < h.fresh := by
  have key : ∀ (l : List (Nat × SerialVector)), p ∈ l →
      p.1 ≤ (l.map (fun q => q.1)).foldr max 0 := by
    intro l
    induction l with
    | nil => intro hm; cases hm
    | cons q l ih =>
      intro hm
      simp only [List.map_cons, List.foldr_cons]
      rcases List.mem_cons.mp hm with heq | hmem
      · subst heq
        exact le_max_left _ _
      · exact le_trans (ih hmem) (le_max_right _ _)
  exact Nat.lt_succ_of_le (key h.live hp)

theorem Heap.lookup_fresh (h : Heap) : h.lookup h.fresh = none := by
  unfold Heap.lookup
  rw [Option.map_eq_none', List.find?_eq_none]
  intro p hp hbeq
  have h1 := Heap.lt_fresh h p hp
  have h2 : p.1 = h.fresh := by simpa using hbeq
  omega

theorem Heap.lookup_append_old (h : Heap) (x : Nat × SerialVector) (a : Nat)
    (w : SerialVector) (hw : h.lookup a = some w) :
    Heap.lookup { h with live := h.live ++ [x] } a = some w := by
  unfold Heap.lookup at hw ⊢
  simp only [List.find?_append]
  cases hf : List.find? (fun p => p.1 == a) h.live with
  | none => rw [hf] at hw; cases hw
  | some q => rw [hf] at hw; simpa using hw

theorem Heap.lookup_append_fresh (h : Heap) (w : SerialVector) :
    Heap.lookup { h with live := h.live ++ [(h.fresh, w)] } h.fresh = some w := by
  have hn := Heap.lookup_fresh h
  unfold Heap.lookup at hn ⊢
  rw [Option.map_eq_none'] at hn
  simp [List.find?_append, hn]

theorem Heap.N_VNew_Serial_neg (n : Int) (h : Heap) (hn : n < 0) :
    Heap.N_VNew_Serial n h = (N_Vector.NULL, h) := by
  simp [Heap.N_VNew_Serial, hn]

theorem Heap.N_VNew_Serial_full (n : Int) (h : Heap) (hm : h.available < n.toNat) :
    Heap.N_VNew_Serial n h = (N_Vector.NULL, h) := by
  unfold Heap.N_VNew_Serial
  split
  · rfl
  · simp [hm]

theorem Heap.N_VNew_Serial_ok (n : Int) (h : Heap) (hn : 0 ≤ n)
    (hm : n.toNat ≤ h.available) :
    Heap.N_VNew_Serial n h =
      (N_Vector.ptr h.fresh,
        { h with live := h.live ++ [(h.fresh, ⟨List.replicate n.toNat none⟩)] }) := by
  unfold Heap.N_VNew_Serial
  rw [if_neg (not_lt.mpr hn), if_neg (not_lt.mpr hm)]

/-- A length exceeding the available memory: `NewVector` returns the null
handle and the heap is as before. -/
theorem NewVector_out_of_memory (acc : N_Vector → Heap → Heap) (n : Int) (h : Heap)
    (hm : h.available < n.toNat) :
    ((NewVector n).run (serialLibrary acc) h).value = N_Vector.NULL ∧
      ((NewVector n).run (serialLibrary acc) h).state = h := by
  rw [run_NewVector]
  show (Heap.N_VNew_Serial n h).1 = N_Vector.NULL ∧ (Heap.N_VNew_Serial n h).2 = h
  rw [Heap.N_VNew_Serial_full n h hm]
  exact ⟨rfl, rfl⟩

/-! ## The adapter against an arbitrary library -/

/-- C1: for every integer `n` and every behaviour of the external constructor,
`NewVector n` calls the constructor with that same `n`, returns exactly the
handle the constructor returned, and ends in the state the constructor left. -/
theorem NewVector_forwards {σ : Type} (L : Library σ) (n : Int) (s : σ) :
    ((NewVector n).run L s).value = (L.N_VNew_Serial n s).1 ∧
      ((NewVector n).run L s).state = (L.N_VNew_Serial n s).2 ∧
      ((NewVector n).run L s).trace = [Event.N_VNew_Serial n] :=
  ⟨rfl, rfl, rfl⟩

/-- C3: an allocation failure is passed on to the caller.  `NewVector n` always
returns, its result is the null handle exactly when the constructor's result
for `n` is the null handle, and no operation is made through any handle before
the return: the constructor call is the only event. -/
theorem NewVector_null_iff {σ : Type} (L : Library σ) (n : Int) (s : σ) :
    (((NewVector n).run L s).value = N_Vector.NULL ↔
        (L.N_VNew_Serial n s).1 = N_Vector.NULL) ∧
      (∀ v : N_Vector, Event.access v ∉ ((NewVector n).run L s).trace) ∧
      ((NewVector n).run L s).trace.length = 1 := by
  rw [run_NewVector]
  refine ⟨Iff.rfl, ?_, rfl⟩
  intro v hv
  simp at hv

/-- C6: `InitVectors` takes no argument, always returns, and has no observable
effect.  From every state `s`, for every library and every `k`, calling it `k`
times ends in `s` with no library event; a single call is the identity on the
state, and calling it twice is the same as calling it once. -/
theorem InitVectors_no_effect {σ : Type} (L : Library σ) (s : σ) (k : Nat) :
    ((Prog.times InitVectors k).run L s).state = s ∧
      ((Prog.times InitVectors k).run L s).trace = [] ∧
      (InitVectors.run L s).state = s ∧
      (InitVectors.run L s).trace = [] ∧
      (InitVectors.run L (InitVectors.run L s).state).state = (InitVectors.run L s).state := by
  rw [run_times_InitVectors]
  exact ⟨rfl, rfl, rfl, rfl, rfl⟩

/-- C8: the adapter does no validation of its own.  For every integer `n`,
negative ones included, and every library, running `NewVector n` calls the
constructor exactly once, with `n`; so whenever it returns the null handle the
constructor has been called and it is the constructor that returned null. -/
theorem NewVector_no_validation {σ : Type} (L : Library σ) (n : Int) (s : σ) :
    ((NewVector n).run L s).trace = [Event.N_VNew_Serial n] ∧
      ((NewVector n).run L s).trace.count (Event.N_VNew_Serial n) = 1 ∧
      (((NewVector n).run L s).value = N_Vector.NULL →
        Event.N_VNew_Serial n ∈ ((NewVector n).run L s).trace ∧
          (L.N_VNew_Serial n s).1 = N_Vector.NULL) := by
  rw [run_NewVector]
  refine ⟨rfl, ?_, ?_⟩
  · simp
  · intro hv
    exact ⟨List.mem_singleton.mpr rfl, hv⟩

/-! ## The adapter against the library of the specification -/

/-- C2, as stated, fails: with 4 elements of memory and no live vector,
`NewVector 5` returns the null handle, behind which there is no buffer. -/
theorem NewVector_length_counterexample :
    ((NewVector 5).run (serialLibrary Heap.idle) ⟨4, []⟩).value = N_Vector.NULL ∧
      ((NewVector 5).run (serialLibrary Heap.idle) ⟨4, []⟩).state.bufferLength
        ((NewVector 5).run (serialLibrary Heap.idle) ⟨4, []⟩).value = none ∧
      ¬ (∀ (n : Int) (h : Heap), 0 ≤ n →
        (((NewVector n).run (serialLibrary Heap.idle) h).state.bufferLength
          ((NewVector n).run (serialLibrary Heap.idle) h).value).map Int.ofNat = some n) := by
  refine ⟨by decide, by decide, ?_⟩
  intro hall
  have h5 := hall 5 ⟨4, []⟩ (by decide)
  revert h5
  decide

/-- C2, amended: for every non-negative `n`, `NewVector n` succeeds (returns a
non-null handle) exactly when `n` does not exceed the available memory, and
whenever it succeeds the buffer behind the returned handle has length `n`. -/
theorem NewVector_length (acc : N_Vector → Heap → Heap) (n : Int) (h : Heap)
    (hn : 0 ≤ n) :
    (((NewVector n).run (serialLibrary acc) h).value ≠ N_Vector.NULL ↔
        n.toNat ≤ h.available) ∧
      (((NewVector n).run (serialLibrary acc) h).value ≠ N_Vector.NULL →
        (((NewVector n).run (serialLibrary acc) h).state.bufferLength
          ((NewVector n).run (serialLibrary acc) h).value).map Int.ofNat = some n) := by
  rw [run_NewVector]
  show ((Heap.N_VNew_Serial n h).1 ≠ N_Vector.NULL ↔ n.toNat ≤ h.available) ∧
    ((Heap.N_VNew_Serial n h).1 ≠ N_Vector.NULL →
      ((Heap.N_VNew_Serial n h).2.bufferLength (Heap.N_VNew_Serial n h).1).map Int.ofNat
        = some n)
  by_cases hm : n.toNat ≤ h.available
  · rw [Heap.N_VNew_Serial_ok n h hn hm]
    refine ⟨⟨fun _ => hm, fun _ hc => by cases hc⟩, fun _ => ?_⟩
    show Option.map Int.ofNat (Option.map (fun x => x.data.length) (Heap.lookup _ h.fresh))
      = some n
    rw [Heap.lookup_append_fresh]
    simp [Int.toNat_of_nonneg hn]
  · rw [Heap.N_VNew_Serial_full n h (not_le.mp hm)]
    exact ⟨⟨fun hc => absurd rfl hc, fun hc => absurd hc hm⟩, fun hc => absurd rfl hc⟩

/-- With exactly 10 elements of memory and no live vector, `NewVector 10`
returns a non-null handle whose buffer has length 10. -/
theorem NewVector_length_witness :
    (0 : Int) ≤ 10 ∧
      ((NewVector 10).run (serialLibrary Heap.idle) ⟨10, []⟩).value ≠ N_Vector.NULL ∧
      (((NewVector 10).run (serialLibrary Heap.idle) ⟨10, []⟩).state.bufferLength
        ((NewVector 10).run (serialLibrary Heap.idle) ⟨10, []⟩).value).map Int.ofNat
          = some 10 :=
  have hv : ((NewVector 10).run (serialLibrary Heap.idle) ⟨10, []⟩).value ≠ N_Vector.NULL :=
    by decide
  ⟨by decide, hv, (NewVector_length Heap.idle 10 ⟨10, []⟩ (by decide)).2 hv⟩

/-- C4: for every negative `n`, `NewVector n` returns the null handle, creates
no vector and leaves the heap as it was. -/
theorem NewVector_negative (acc : N_Vector → Heap → Heap) (n : Int) (h : Heap)
    (hn : n < 0) :
    ((NewVector n).run (serialLibrary acc) h).value = N_Vector.NULL ∧
      ((NewVector n).run (serialLibrary acc) h).state = h ∧
      ((NewVector n).run (serialLibrary acc) h).state.deref
        ((NewVector n).run (serialLibrary acc) h).value = none := by
  rw [run_NewVector]
  show (Heap.N_VNew_Serial n h).1 = N_Vector.NULL ∧ (Heap.N_VNew_Serial n h).2 = h ∧
    (Heap.N_VNew_Serial n h).2.deref (Heap.N_VNew_Serial n h).1 = none
  rw [Heap.N_VNew_Serial_neg n h hn]
  exact ⟨rfl, rfl, rfl⟩

/-- With 8 elements of memory and no live vector, `NewVector (-1)` returns the
null handle and the heap is unchanged. -/
theorem NewVector_negative_witness :
    (-1 : Int) < 0 ∧
      ((NewVector (-1)).run (serialLibrary Heap.idle) ⟨8, []⟩).value = N_Vector.NULL ∧
      ((NewVector (-1)).run (serialLibrary Heap.idle) ⟨8, []⟩).state = ⟨8, []⟩ :=
  ⟨by decide,
    (NewVector_negative Heap.idle (-1) ⟨8, []⟩ (by decide)).1,
    (NewVector_negative Heap.idle (-1) ⟨8, []⟩ (by decide)).2.1⟩

/-- C5: from every heap, `NewVector 0` returns a non-null handle, and the
vector behind it has an empty buffer, of length 0. -/
theorem NewVector_zero (acc : N_Vector → Heap → Heap) (h : Heap) :
    ((NewVector 0).run (serialLibrary acc) h).value ≠ N_Vector.NULL ∧
      ((NewVector 0).run (serialLibrary acc) h).state.deref
        ((NewVector 0).run (serialLibrary acc) h).value = some ⟨[]⟩ ∧
      ((NewVector 0).run (serialLibrary acc) h).state.bufferLength
        ((NewVector 0).run (serialLibrary acc) h).value = some 0 := by
  rw [run_NewVector]
  show (Heap.N_VNew_Serial 0 h).1 ≠ N_Vector.NULL ∧
    (Heap.N_VNew_Serial 0 h).2.deref (Heap.N_VNew_Serial 0 h).1 = some ⟨[]⟩ ∧
    (Heap.N_VNew_Serial 0 h).2.bufferLength (Heap.N_VNew_Serial 0 h).1 = some 0
  rw [Heap.N_VNew_Serial_ok 0 h (le_refl 0) (Nat.zero_le _)]
  refine ⟨fun hc => (by cases hc), ?_, ?_⟩
  · show Heap.lookup _ h.fresh = some ⟨[]⟩
    rw [Heap.lookup_append_fresh]
    rfl
  · show Option.map (fun x => x.data.length) (Heap.lookup _ h.fresh) = some 0
    rw [Heap.lookup_append_fresh]
    rfl

/-- C7: `NewVector n` has no side effect other than the allocation.  It makes
exactly one constructor call and no other library operation; the heap after it
is the heap before it (when the result is null), or the heap before it with one
vector added at an address that was not live, which is the one returned; and
every vector that was live before is still live, with the same buffer. -/
theorem NewVector_frame (acc : N_Vector → Heap → Heap) (n : Int) (h : Heap) :
    ((NewVector n).run (serialLibrary acc) h).trace = [Event.N_VNew_Serial n] ∧
      ((((NewVector n).run (serialLibrary acc) h).value = N_Vector.NULL ∧
          ((NewVector n).run (serialLibrary acc) h).state = h) ∨
        (∃ (a : Nat) (w : SerialVector),
          ((NewVector n).run (serialLibrary acc) h).value = N_Vector.ptr a ∧
            h.lookup a = none ∧
            ((NewVector n).run (serialLibrary acc) h).state =
              { h with live := h.live ++ [(a, w)] })) ∧
      (∀ (a : Nat) (w : SerialVector), h.lookup a = some w →
        ((NewVector n).run (serialLibrary acc) h).state.lookup a = some w) := by
  rw [run_NewVector]
  refine ⟨rfl, ?_⟩
  show (((Heap.N_VNew_Serial n h).1 = N_Vector.NULL ∧ (Heap.N_VNew_Serial n h).2 = h) ∨
      (∃ (a : Nat) (w : SerialVector), (Heap.N_VNew_Serial n h).1 = N_Vector.ptr a ∧
        h.lookup a = none ∧
        (Heap.N_VNew_Serial n h).2 = { h with live := h.live ++ [(a, w)] })) ∧
    (∀ (a : Nat) (w : SerialVector), h.lookup a = some w →
      (Heap.N_VNew_Serial n h).2.lookup a = some w)
  by_cases hn : n < 0
  · rw [Heap.N_VNew_Serial_neg n h hn]
    exact ⟨Or.inl ⟨rfl, rfl⟩, fun _ _ hw => hw⟩
  · by_cases hm : n.toNat ≤ h.available
    · rw [Heap.N_VNew_Serial_ok n h (not_lt.mp hn) hm]
      exact ⟨Or.inr ⟨h.fresh, _, rfl, Heap.lookup_fresh h, rfl⟩,
        fun a w hw => Heap.lookup_append_old h _ a w hw⟩
    · rw [Heap.N_VNew_Serial_full n h (not_le.mp hm)]
      exact ⟨Or.inl ⟨rfl, rfl⟩, fun _ _ hw => hw⟩

/-- With two live vectors and room left, `NewVector 3` adds one vector of
length 3 at a new address and the vector at address 1 keeps its buffer. -/
theorem NewVector_frame_witness :
    Heap.lookup ⟨9, [(1, ⟨[some 7, none]⟩), (4, ⟨[some 2]⟩)]⟩ 1 = some ⟨[some 7, none]⟩ ∧
      ((NewVector 3).run (serialLibrary Heap.idle)
        ⟨9, [(1, ⟨[some 7, none]⟩), (4, ⟨[some 2]⟩)]⟩).state.lookup 1
          = some ⟨[some 7, none]⟩ ∧
      ((NewVector 3).run (serialLibrary Heap.idle)
        ⟨9, [(1, ⟨[some 7, none]⟩), (4, ⟨[some 2]⟩)]⟩).state
          = ⟨9, [(1, ⟨[some 7, none]⟩), (4, ⟨[some 2]⟩), (5, ⟨[none, none, none]⟩)]⟩ :=
  ⟨by decide,
    (NewVector_frame Heap.idle 3 ⟨9, [(1, ⟨[some 7, none]⟩), (4, ⟨[some 2]⟩)]⟩).2.2
      1 ⟨[some 7, none]⟩ (by decide),
    by decide⟩

end NvmSerial
